import Mathlib

/-!
Verification of the `pathmatch` repository (Go): path-template compilation
(`parse.go`), matching (`internal/match/match.go`), path-string utilities
(`internal/utils/utils.go`) and the stateful `Walker` cursor.

Each definition in this file is a shallow embedding of the corresponding Go
function; Go maps are modelled as association lists whose insert operation
overwrites the value of an existing key in place, Go slices as Lean lists,
and Go's `(value, error)` returns as `Except`.
-/

namespace Pathmatch

/-! ## Path string utilities — internal/utils/utils.go -/

/-- Go `strings.Trim(path, "/")`: drop the maximal runs of `'/'` characters
from both ends of the string (also used by `Join` on each segment). -/
def trimSlashes (s : String) : String :=
  String.mk (((s.toList.dropWhile (fun c => c = '/')).reverse.dropWhile
    (fun c => c = '/')).reverse)

/-- Go `strings.Split(s, "/")` for the single-character separator `'/'`:
splits into pieces between slashes, keeping empty pieces. -/
def splitOnSlashAux : List Char → List Char → List String
  | [], acc => [String.mk acc.reverse]
  | c :: rest, acc =>
    if c = '/' then String.mk acc.reverse :: splitOnSlashAux rest []
    else splitOnSlashAux rest (c :: acc)

def splitOnSlash (s : String) : List String :=
  splitOnSlashAux s.toList []

/-- Embedding of `utils.Split`: trim surrounding slashes, return `[]` when nothing is
left, otherwise split on `'/'` and drop the empty pieces produced by
duplicate slashes. -/
def Split (path : String) : List String :=
  let trimmedPath := trimSlashes path
  if trimmedPath = "" then []
  else (splitOnSlash trimmedPath).filter (fun s => s ≠ "")

/-- Embedding of `utils.Join`: `"/"` for no segments; otherwise trim slashes from each
segment, drop the empty ones, and prefix a single leading slash
(`"/" + strings.Join(validSegments, "/")`). -/
def Join (segments : List String) : String :=
  if segments = [] then "/"
  else
    let validSegments := (segments.map trimSlashes).filter (fun s => s ≠ "")
    if validSegments = [] then "/"
    else "/" ++ String.intercalate "/" validSegments

/-- Embedding of `utils.Clean`: `""` stays `""`, `"/"` stays `"/"`, otherwise split and
re-join (with `"/"` for an all-slash path). -/
def Clean (path : String) : String :=
  if path = "" then ""
  else if path = "/" then "/"
  else
    let segments := Split path
    if segments = [] then "/"
    else Join segments

end Pathmatch

namespace Pathmatch

/-! ## String comparison — internal/match/utils.go

`compareStrings` delegates to Go's `strings.EqualFold` when
`caseInsensitive` is set.  `EqualFold` is Go standard-library code (not part
of this repository); it is modelled here from its implementation: two
strings are fold-equal when their rune sequences have the same length and
each rune pair is equal, ASCII-case-equal, or connected by the
`unicode.SimpleFold` orbit.  The model's fold-orbit table is the subset of
Go's `caseOrbit` table for the orbits of `k` and `s` (the exceptional
orbits exercised by the theorems below); outside the table the model falls
back to the ASCII case mapping, under-approximating the full Unicode case
tables, which no theorem in this file depends on. -/

/-- ASCII lower-casing on code points (`'A'..'Z'` ↦ `+32`). -/
def asciiLowerNat (n : Nat) : Nat :=
  if 65 ≤ n ∧ n ≤ 90 then n + 32 else n

/-- ASCII upper-casing on code points (`'a'..'z'` ↦ `-32`). -/
def asciiUpperNat (n : Nat) : Nat :=
  if 97 ≤ n ∧ n ≤ 122 then n - 32 else n

/-- The `k` and `s` fold orbits from Go's `unicode.caseOrbit` table:
`K ↦ k ↦ KELVIN SIGN ↦ K` and `S ↦ s ↦ LATIN SMALL LETTER LONG S ↦ S`. -/
def caseOrbit : List (Nat × Nat) :=
  [(0x4B, 0x6B), (0x53, 0x73), (0x6B, 0x212A), (0x73, 0x17F),
   (0x17F, 0x53), (0x212A, 0x4B)]

/-- Model of `unicode.SimpleFold`: consult the orbit table, otherwise step
to `ToLower r` when it differs from `r`, else to `ToUpper r`. -/
def simpleFold (r : Nat) : Nat :=
  match caseOrbit.lookup r with
  | some t => t
  | none => if asciiLowerNat r ≠ r then asciiLowerNat r else asciiUpperNat r

/-- The fold-cycle walk inside `EqualFold`: starting from `r = SimpleFold sr`,
step while `r ≠ sr ∧ r < tr`, then succeed iff `r = tr`.  Go's loop
terminates because fold orbits are finite cycles; the fuel (orbits have at
most four elements) makes the recursion structural. -/
def foldLoop : Nat → Nat → Nat → Nat → Bool
  | 0, _, tr, r => r == tr
  | fuel + 1, sr, tr, r =>
    if r ≠ sr ∧ r < tr then foldLoop fuel sr tr (simpleFold r)
    else r == tr

/-- Per-rune comparison of `strings.EqualFold`: equal runes, ASCII
upper/lower pairs when the larger rune is ASCII, otherwise membership of
the larger rune in the smaller rune's fold orbit. -/
def runeFoldEq (a b : Char) : Bool :=
  if a = b then true
  else
    let sr := min a.toNat b.toNat
    let tr := max a.toNat b.toNat
    if tr < 128 then decide (65 ≤ sr ∧ sr ≤ 90 ∧ tr = sr + 32)
    else foldLoop 8 sr tr (simpleFold sr)

/-- Model of `strings.EqualFold` on rune sequences: same length and pairwise
fold-equal runes. -/
def equalFoldChars : List Char → List Char → Bool
  | [], [] => true
  | a :: as, b :: bs => runeFoldEq a b && equalFoldChars as bs
  | _, _ => false

def equalFold (s t : String) : Bool :=
  equalFoldChars s.toList t.toList

/-- Embedding of `match.compareStrings`: `strings.EqualFold` under `caseInsensitive`,
plain equality otherwise. -/
def compareStrings (a b : String) (caseInsensitive : Bool) : Bool :=
  if caseInsensitive then equalFold a b else a == b

/-- Spec-side definition for C9, written from the claim's words: two
strings are "equal under ASCII case folding" when lower-casing the ASCII
letters (and only those) of each yields the same code-point sequence.
Folding of this relation never extends beyond ASCII. -/
def asciiFoldEq (a b : String) : Bool :=
  decide (a.toList.map (fun c => asciiLowerNat c.toNat) =
    b.toList.map (fun c => asciiLowerNat c.toNat))

end Pathmatch

namespace Pathmatch

/-! ## The compiled-template tree — pathmatchpb -/

/-- Embedding of `pathmatchpb.Segment`: the tagged-union node type of a compiled
template.  A `variable` with `none` is a bare `{name}`; `some segments` is
`{name=pattern}` (Go distinguishes a nil slice from a non-nil one). -/
inductive Segment where
  | literal (value : String)
  | star
  | doubleStar
  | variable (name : String) (segments : Option (List Segment))

/-- Embedding of `match.MatchOptions`. -/
structure MatchOptions where
  caseInsensitive : Bool := false
  keepFirstVariable : Bool := false
  deriving Repr, DecidableEq

/-- Go `map[string]string`, modelled as an association list; `varsInsert`
overwrites the value of an existing key in place. -/
def Vars := List (String × String)
  deriving Repr, DecidableEq

def varsInsert (k v : String) : Vars → Vars
  | [] => [(k, v)]
  | (k', v') :: rest =>
    if k' = k then (k, v) :: rest else (k', v') :: varsInsert k v rest

def varsLookup (k : String) : Vars → Option String
  | [] => none
  | (k', v') :: rest => if k' = k then some v' else varsLookup k rest

end Pathmatch

namespace Pathmatch

/-! ## The matcher — internal/match/match.go

`Match(template, pathSegments, opts)` returns `(matched, pathIdx, vars, err)`;
here `Except MatchErr (Bool × Nat × Vars)` with the error side for the
non-nil `err` returns.  The `template == nil` guard of the Go function has
no counterpart because a Lean list cannot be nil; all other control flow is
translated branch for branch. -/

/-- The matcher's error returns (`errors.New(...)` in `Match`). -/
inductive MatchErr where
  | doubleStarNotLast
  | doubleStarNotLastInVariable
  | nestedVariable
  deriving Repr, DecidableEq

/-- Outcome of the inner loop over a variable's sub-pattern segments
(the `for i := range s.Variable.Segments` loop). -/
inductive SubRes where
  | fail
  | err (e : MatchErr)
  | earlyAll (varValue : List String)
  | done (pathIdx : Nat) (varValue : List String)

/-- The loop body over a variable's sub-pattern.  `outerLast` records
whether the enclosing variable is the final top-level segment
(`templateIdx == len(template.Segments)-1` in Go); the `doubleStar` branch
raises its error only when the `doubleStar` is neither last in the
sub-pattern nor inside the final top-level segment — Go combines both
conditions with `&&`. -/
def subLoop (opts : MatchOptions) (ps : List String) :
    List Segment → Bool → Nat → List String → SubRes
  | [], _, pathIdx, varValue => .done pathIdx varValue
  | seg :: restSubs, outerLast, pathIdx, varValue =>
    match seg with
    | .literal v =>
      if pathIdx ≥ ps.length ∨
          compareStrings v (ps.getD pathIdx "") opts.caseInsensitive = false then
        .fail
      else subLoop opts ps restSubs outerLast (pathIdx + 1) (varValue ++ [v])
    | .doubleStar =>
      if restSubs.isEmpty = false ∧ outerLast = false then
        .err .doubleStarNotLastInVariable
      else .earlyAll (varValue ++ ps.drop pathIdx)
    | .star =>
      if pathIdx < ps.length then
        subLoop opts ps restSubs outerLast (pathIdx + 1)
          (varValue ++ [ps.getD pathIdx ""])
      else .fail
    | .variable _ _ => .err .nestedVariable

/-- The main matching loop of `Match`.  The Go loop runs while
`templateIdx < len(template.Segments) && pathIdx < len(pathSegments)` and
afterwards fails unless every template segment was consumed; the recursion
is over the unconsumed template suffix, so the empty suffix is the
all-consumed success and a nonempty suffix with the path exhausted is the
after-loop failure `(false, 0, nil)`. -/
def matchLoop (opts : MatchOptions) (ps : List String) :
    List Segment → Nat → Vars → Except MatchErr (Bool × Nat × Vars)
  | [], pathIdx, vars => .ok (true, pathIdx, vars)
  | seg :: restSegs, pathIdx, vars =>
    if pathIdx < ps.length then
      match seg with
      | .literal v =>
        if compareStrings v (ps.getD pathIdx "") opts.caseInsensitive then
          matchLoop opts ps restSegs (pathIdx + 1) vars
        else .ok (false, 0, [])
      | .star => matchLoop opts ps restSegs (pathIdx + 1) vars
      | .doubleStar =>
        if restSegs.isEmpty = false then .error .doubleStarNotLast
        else .ok (true, ps.length, vars)
      | .variable name none =>
        matchLoop opts ps restSegs (pathIdx + 1)
          (varsInsert name (ps.getD pathIdx "") vars)
      | .variable name (some subs) =>
        match subLoop opts ps subs restSegs.isEmpty pathIdx [] with
        | .fail => .ok (false, 0, [])
        | .err e => .error e
        | .earlyAll varValue =>
          .ok (true, ps.length, varsInsert name (Join varValue) vars)
        | .done pathIdx' varValue =>
          let vars' :=
            match varsLookup name vars with
            | none => varsInsert name (Join varValue) vars
            | some _ =>
              if opts.keepFirstVariable = false then
                varsInsert name (Join varValue) vars
              else vars
          matchLoop opts ps restSegs pathIdx' vars'
    else .ok (false, 0, [])

/-- Embedding of `match.Match`: the empty segment list matches exactly the empty
template; otherwise run the main loop from the start of both sequences. -/
def Match (template : List Segment) (pathSegments : List String)
    (opts : MatchOptions) : Except MatchErr (Bool × Nat × Vars) :=
  if pathSegments.length = 0 then .ok (template.length == 0, 0, [])
  else matchLoop opts pathSegments template 0 []

/-- The strict wrapper applied by `match.StrictMatch` (and `Match` in
`match.go`) after splitting the path: the match only counts when every
path segment was consumed, and the variables are cleared otherwise. -/
def matchStrictSegs (template : List Segment) (pathSegments : List String)
    (opts : MatchOptions) : Except MatchErr (Bool × Vars) :=
  match Match template pathSegments opts with
  | .error e => .error e
  | .ok (matched, pathIdx, vars) =>
    if matched && pathIdx == pathSegments.length then .ok (true, vars)
    else .ok (false, [])

/-- Embedding of `match.StrictMatch`: split the raw path, match, and require total
consumption. -/
def StrictMatch (template : List Segment) (path : String)
    (opts : MatchOptions) : Except MatchErr (Bool × Vars) :=
  matchStrictSegs template (Split path) opts

end Pathmatch

namespace Pathmatch

/-! ## The lexer and template compiler — parse.go

The recursive-descent parser is embedded with an explicit fuel parameter to
make the mutual recursion structural; `ParseTemplate` supplies fuel
exceeding the recursion depth any input of its length can reach, so the
`outOfFuel` branch is unreachable from the API. -/

inductive TokenType where
  | unknown
  | slash
  | star
  | doubleStar
  | literal
  | leftBrace
  | rightBrace
  | eq
  | eof
  deriving Repr, DecidableEq

/-- Go `Token`; the zero value (`TokenUnknown`, `""`) is the initial `prev`
of a fresh lexer. -/
structure Token where
  type : TokenType := .unknown
  value : String := ""
  deriving Repr, DecidableEq

/-- The characters that terminate a literal run (`strings.IndexAny(s, "/*{}=")`),
and each of which lexes as its own token. -/
def isSpecialChar (c : Char) : Bool :=
  c = '/' || c = '*' || c = '{' || c = '}' || c = '='

/-- Embedding of `lexer.nextToken`, with the position threaded explicitly: reads one
token at `pos` and returns it with the new position.  `**` is `doubleStar`
only when two `*` are adjacent; a literal is the maximal run of
non-special characters. -/
def nextToken (input : List Char) (pos : Nat) : Token × Nat :=
  if pos ≥ input.length then ({ type := .eof }, pos)
  else
    let ch := input.getD pos ' '
    if ch = '/' then ({ type := .slash }, pos + 1)
    else if ch = '*' then
      if pos + 1 < input.length ∧ input.getD (pos + 1) ' ' = '*' then
        ({ type := .doubleStar }, pos + 2)
      else ({ type := .star }, pos + 1)
    else if ch = '{' then ({ type := .leftBrace }, pos + 1)
    else if ch = '}' then ({ type := .rightBrace }, pos + 1)
    else if ch = '=' then ({ type := .eq }, pos + 1)
    else
      let run := (input.drop pos).takeWhile (fun c => isSpecialChar c = false)
      ({ type := .literal, value := String.mk run }, pos + run.length)

/-- The lexer state: one-token lookahead (`curr`), the previously consumed
token (`prev`), and the sticky `meetDoubleStar` flag consulted by the
parser. -/
structure Lexer where
  input : List Char
  pos : Nat
  curr : Token
  prev : Token := {}
  meetDoubleStar : Bool
  deriving Repr

/-- Embedding of `NewLexer`. -/
def newLexer (s : String) : Lexer :=
  let chars := s.toList
  if chars.length = 0 then
    { input := chars, pos := 0, curr := { type := .eof }, meetDoubleStar := false }
  else
    let (t, p) := nextToken chars 0
    { input := chars, pos := p, curr := t, meetDoubleStar := false }

/-- Embedding of `lexer.Match`: when `curr` has the requested type, consume it (moving it
to `prev` and lexing the next token) and return true; a consumed
`doubleStar` sets the sticky flag.  Otherwise return false leaving the
state unchanged. -/
def lexMatch (tok : TokenType) (l : Lexer) : Bool × Lexer :=
  if l.curr.type ≠ tok then (false, l)
  else
    let meet := if tok = .doubleStar then true else l.meetDoubleStar
    let (t, p) := nextToken l.input l.pos
    (true, { l with prev := l.curr, curr := t, pos := p, meetDoubleStar := meet })

/-- The parser's typed error conditions (the sentinel errors of `parse.go`
plus the distinct `fmt.Errorf` failures). -/
inductive ParseErr where
  | expectedLeadingSlash
  | unexpectedEndOfInput
  | unexpectedDoubleStar
  | unexpectedToken
  | subVariable
  | expectedVarName
  | expectedEqOrSlash
  | outOfFuel
  deriving Repr, DecidableEq

mutual

/-- Embedding of `parseSegment`: double wildcard (rejected outright once the lexer has
already met a `**`), then `*`, then a literal, then a variable (which, with
`expectVar = false`, is converted to the nested-variable error when it
would parse).  Go writes the first two checks as
`if !lex.MeetDoubleStar() && lex.Match(TokenDoubleStar)` followed by
`if lex.MeetDoubleStar()`; the `&&` short-circuits, so with the flag set
nothing is consumed and the error is returned, which is the branch order
used here. -/
def parseSegment : Nat → Lexer → Bool → Except ParseErr (Segment × Lexer)
  | 0, _, _ => .error .outOfFuel
  | fuel + 1, lex, expectVar =>
    if lex.meetDoubleStar then .error .unexpectedDoubleStar
    else
      let (ok, lex₁) := lexMatch .doubleStar lex
      if ok then .ok (.doubleStar, lex₁)
      else
        let (ok, lex₂) := lexMatch .star lex₁
        if ok then .ok (.star, lex₂)
        else
          let (ok, lex₃) := lexMatch .literal lex₂
          if ok then .ok (.literal lex₃.prev.value, lex₃)
          else
            if expectVar then parseVariable fuel lex₃
            else
              match parseVariable fuel lex₃ with
              | .ok _ => .error .subVariable
              | .error e => .error e

/-- Embedding of `parseVariable`: `{`, the variable name, then either `}` (bare
variable), or `=` followed by slash-separated sub-segments up to `}`; an
empty sub-pattern and a missing `}` are end-of-input errors. -/
def parseVariable : Nat → Lexer → Except ParseErr (Segment × Lexer)
  | 0, _ => .error .outOfFuel
  | fuel + 1, lex =>
    let (ok, lex₁) := lexMatch .leftBrace lex
    if ¬ok then .error .unexpectedToken
    else
      let (ok, lex₂) := lexMatch .literal lex₁
      if ¬ok then .error .expectedVarName
      else
        let varName := lex₂.prev.value
        let (ok, lex₃) := lexMatch .rightBrace lex₂
        if ok then .ok (.variable varName none, lex₃)
        else
          let (ok, lex₄) := lexMatch .eof lex₃
          if ok then .error .unexpectedEndOfInput
          else
            let (ok, lex₅) := lexMatch .eq lex₄
            if ¬ok then .error .expectedEqOrSlash
            else
              match parseVarSegsLoop fuel lex₅ [] with
              | .error e => .error e
              | .ok (segments, lex₆) =>
                if segments.isEmpty then .error .unexpectedEndOfInput
                else .ok (.variable varName (some segments), lex₆)

/-- The `for !lex.Match(TokenRightBrace)` loop of `parseVariable`: skip
slashes, fail on end of input, otherwise parse one sub-segment with
`expectVar = false` and continue. -/
def parseVarSegsLoop : Nat → Lexer → List Segment →
    Except ParseErr (List Segment × Lexer)
  | 0, _, _ => .error .outOfFuel
  | fuel + 1, lex, acc =>
    let (ok, lex₁) := lexMatch .rightBrace lex
    if ok then .ok (acc, lex₁)
    else
      let (ok, lex₂) := lexMatch .eof lex₁
      if ok then .error .unexpectedEndOfInput
      else
        let (ok, lex₃) := lexMatch .slash lex₂
        if ok then parseVarSegsLoop fuel lex₃ acc
        else
          match parseSegment fuel lex₃ false with
          | .error e => .error e
          | .ok (segment, lex₄) => parseVarSegsLoop fuel lex₄ (acc ++ [segment])

end

/-- Embedding of `parseSegments`: the top-level loop, consuming slashes as delimiters
until end of input. -/
def parseSegmentsLoop : Nat → Lexer → List Segment →
    Except ParseErr (List Segment)
  | 0, _, _ => .error .outOfFuel
  | fuel + 1, lex, acc =>
    let (ok, lex₁) := lexMatch .eof lex
    if ok then .ok acc
    else
      let (ok, lex₂) := lexMatch .slash lex₁
      if ok then parseSegmentsLoop fuel lex₂ acc
      else
        match parseSegment fuel lex₂ true with
        | .error e => .error e
        | .ok (segment, lex₃) => parseSegmentsLoop fuel lex₃ (acc ++ [segment])

/-- Embedding of `ParseTemplate`: require the leading slash, then parse the segment
sequence.  The fuel bound `2 * length + 8` exceeds the recursion depth
reachable on an input of this length (every recursive call either consumes
a token or descends once into a variable). -/
def ParseTemplate (s : String) : Except ParseErr (List Segment) :=
  let lex := newLexer s
  let (ok, lex₁) := lexMatch .slash lex
  if ¬ok then .error .expectedLeadingSlash
  else parseSegmentsLoop (2 * s.length + 8) lex₁ []

end Pathmatch

namespace Pathmatch

/-! ## The cursor — Walker (parse.go / walker.go) -/

/-- The `Walker` state: the fixed split path, the consumption offset, the
depth, the checkpoint stack of consumption offsets (index 0 holds the
initial offset 0), and one captured-variable layer per successful step. -/
structure Walker where
  pathSegments : List String
  currDepth : Nat
  pathSegIdx : Nat
  segIdsCheckpoints : List Nat
  vars : List Vars
  matchOptions : MatchOptions
  deriving Repr, DecidableEq

/-- Embedding of `NewWalker`. -/
def newWalker (path : String) : Walker :=
  { pathSegments := Split path
    currDepth := 0
    pathSegIdx := 0
    segIdsCheckpoints := [0]
    vars := []
    matchOptions := {} }

/-- The three outcomes of `Walker.Step`: a matcher error, a failed match
(state unchanged in both cases), or a successful step with the step's own
captures and the advanced walker. -/
inductive StepOutcome where
  | err (e : MatchErr)
  | noMatch
  | stepped (stepVars : Vars) (w : Walker)

/-- Embedding of `Walker.Step`: match the template against the unconsumed suffix; on
success advance `pathSegIdx` by the consumed count, increment the depth,
append the step's captures as a new layer, and record the new offset in
the checkpoint stack (appending when the stack is short, overwriting the
stale entry otherwise). -/
def step (w : Walker) (template : List Segment) : StepOutcome :=
  match Match template (w.pathSegments.drop w.pathSegIdx) w.matchOptions with
  | .error e => .err e
  | .ok (false, _, _) => .noMatch
  | .ok (true, pathIdx, vars) =>
    let pathSegIdx' := w.pathSegIdx + pathIdx
    let currDepth' := w.currDepth + 1
    let segIdsCheckpoints' :=
      if w.segIdsCheckpoints.length ≤ currDepth' then
        w.segIdsCheckpoints ++ [pathSegIdx']
      else w.segIdsCheckpoints.set currDepth' pathSegIdx'
    .stepped vars
      { w with
        pathSegIdx := pathSegIdx'
        currDepth := currDepth'
        vars := w.vars ++ [vars]
        segIdsCheckpoints := segIdsCheckpoints' }

/-- Embedding of `Walker.StepBack`: no-op returning false at depth 0; otherwise restore
the offset recorded at the previous depth and trim the capture layers
(clearing them entirely when the depth exceeds the layer count). -/
def stepBack (w : Walker) : Walker × Bool :=
  if w.currDepth = 0 then (w, false)
  else
    let currDepth' := w.currDepth - 1
    let pathSegIdx' := w.segIdsCheckpoints.getD currDepth' 0
    let vars' := if currDepth' < w.vars.length then w.vars.take currDepth' else []
    ({ w with currDepth := currDepth', pathSegIdx := pathSegIdx', vars := vars' },
      true)

/-- Embedding of `Walker.Reset`. -/
def reset (w : Walker) : Walker :=
  { w with pathSegIdx := 0, currDepth := 0, segIdsCheckpoints := [0], vars := [] }

/-- Embedding of `Walker.IsComplete`. -/
def isComplete (w : Walker) : Bool :=
  w.pathSegIdx == w.pathSegments.length

/-- Embedding of `Walker.Depth`. -/
def depth (w : Walker) : Nat :=
  w.currDepth

/-- Embedding of `Walker.Remaining`: the unconsumed suffix re-joined, `""` when fully
consumed. -/
def remaining (w : Walker) : String :=
  if w.pathSegIdx ≥ w.pathSegments.length then ""
  else Join (w.pathSegments.drop w.pathSegIdx)

/-- Embedding of `Walker.Variables`: merge the capture layers in step order; with
`keepFirstVariable` an existing key is kept, otherwise it is overwritten. -/
def mergeLayer (keepFirst : Bool) (acc : Vars) : Vars → Vars
  | [] => acc
  | (k, v) :: rest =>
    let acc' :=
      if keepFirst ∧ (varsLookup k acc).isSome then acc
      else varsInsert k v acc
    mergeLayer keepFirst acc' rest

def Variables (w : Walker) : Vars :=
  w.vars.foldl (mergeLayer w.matchOptions.keepFirstVariable) []

/-- Iterated `step` with every step required to succeed (the hypothesis of
the cursor-undo property). -/
def stepMany (w : Walker) : List (List Segment) → Option Walker
  | [] => some w
  | t :: ts =>
    match step w t with
    | .stepped _ w' => stepMany w' ts
    | _ => none

/-- Iterated `stepBack` (discarding the boolean), applying the extra
`stepBack` after the first `n`. -/
def stepBackN : Nat → Walker → Walker
  | 0, w => w
  | n + 1, w => (stepBack (stepBackN n w)).1

/-- The structural invariant every walker reachable through the API
satisfies: the checkpoint stack extends to the current depth, its entry at
the current depth is the current offset, and there is one capture layer
per depth level. -/
def WalkerInv (w : Walker) : Prop :=
  w.currDepth < w.segIdsCheckpoints.length ∧
  w.segIdsCheckpoints[w.currDepth]? = some w.pathSegIdx ∧
  w.vars.length = w.currDepth

instance (w : Walker) : Decidable (WalkerInv w) := by
  unfold WalkerInv
  infer_instance

/-- Agreement of two walker states on everything `stepBack` and the
observers can see: all fields except the checkpoint entries above the
current depth (stale checkpoint entries are unobservable — they are
overwritten before being read again). -/
def WEquiv (a b : Walker) : Prop :=
  a.pathSegments = b.pathSegments ∧
  a.pathSegIdx = b.pathSegIdx ∧
  a.currDepth = b.currDepth ∧
  a.vars = b.vars ∧
  a.matchOptions = b.matchOptions ∧
  a.segIdsCheckpoints.take (a.currDepth + 1) =
    b.segIdsCheckpoints.take (b.currDepth + 1)

end Pathmatch

namespace Pathmatch

/-! ## Claim vocabulary: trees without DoubleStar, and node counts -/

mutual

/-- No `doubleStar` occurs anywhere in the segment (including inside a
variable's sub-pattern). -/
def segNoDoubleStar : Segment → Bool
  | .literal _ => true
  | .star => true
  | .doubleStar => false
  | .variable _ none => true
  | .variable _ (some subs) => listNoDoubleStar subs

/-- No `doubleStar` occurs anywhere in the segment list. -/
def listNoDoubleStar : List Segment → Bool
  | [] => true
  | seg :: rest => segNoDoubleStar seg && listNoDoubleStar rest

end

/-- The number of path segments a tree node consumes when no `doubleStar`
is involved: one for a literal, star or bare variable, and one per
sub-pattern element for a variable with a sub-pattern.  Summed over a
template this is the claim's "number of tree nodes" measure. -/
def segCount : Segment → Nat
  | .literal _ => 1
  | .star => 1
  | .doubleStar => 1
  | .variable _ none => 1
  | .variable _ (some subs) => subs.length

def nodeCount (t : List Segment) : Nat :=
  (t.map segCount).sum

end Pathmatch

namespace Pathmatch

/-! ## C7 — join∘split versus Clean -/

/-- C7 counterexample: on the empty string the claimed identity fails —
`Join (Split "")` is `"/"` while `Clean ""` (the normalize of the code) is
`""`. -/
theorem join_split_empty_ne_clean :
    Join (Split "") = "/" ∧ Clean "" = "" ∧ Join (Split "") ≠ Clean "" := by
  refine ⟨rfl, rfl, ?_⟩
  decide

/-- C7 (amended): for every nonempty path `p`, `Join (Split p) = Clean p`;
the identity fails only at `p = ""`, where the left side is `"/"` and
`Clean` returns `""`. -/
theorem join_split_eq_clean (p : String) (h : p ≠ "") :
    Join (Split p) = Clean p := by
  unfold Clean
  rw [if_neg h]
  by_cases hr : p = "/"
  · subst hr
    rw [if_pos rfl]
    rfl
  · rw [if_neg hr]
    by_cases hs : Split p = []
    · rw [if_pos hs, hs]
      rfl
    · rw [if_neg hs]

/-- Witness for `join_split_eq_clean` at the concrete path `"//a//b/"`. -/
theorem join_split_eq_clean_witness :
    Join (Split "//a//b/") = Clean "//a//b/" :=
  join_split_eq_clean "//a//b/" (by decide)

/-! ## C1 — a trailing DoubleStar does not match zero trailing segments -/

/-- C1: the tree compiled from `"/data/**"` matched against `"/data"`
(segment list `["data"]`) returns `matched = false` — the matcher's main
loop stops as soon as the path is exhausted, so the trailing `doubleStar`
is never reached and the template is not fully consumed.  The claim (and
the repository's own README, which states that `/data/**` matches `/data`)
says this must match with zero trailing segments. -/
theorem doublestar_zero_trailing_mismatch :
    ParseTemplate "/data/**" = .ok [.literal "data", .doubleStar] ∧
    Match [.literal "data", .doubleStar] ["data"] {} = .ok (false, 0, []) ∧
    StrictMatch [.literal "data", .doubleStar] "/data" {} = .ok (false, []) ∧
    Match [.doubleStar] [] {} = .ok (false, 0, []) :=
  ⟨rfl, rfl, rfl, rfl⟩

/-! ## C5 — misplaced DoubleStar in a sub-pattern is not always an error -/

/-- C5: the hand-built tree `[{v=[**, "x"]}]` places `doubleStar` mid-way
through the variable's sub-pattern, yet the matcher silently returns
`matched = true` with capture `v = "/a/b"` instead of the claimed
structural error: the defensive check fires only when the enclosing
variable is *also* not the final top-level segment (Go joins the two
conditions with `&&`), while its own error message says the double star
must be last in the variable pattern. -/
theorem malformed_subpattern_silent_match :
    Match [.variable "v" (some [.doubleStar, .literal "x"])] ["a", "b"] {} =
      .ok (true, 2, [("v", "/a/b")]) :=
  rfl

end Pathmatch

namespace Pathmatch

/-! ## C3 — sub-pattern DoubleStar capture carries a leading slash -/

set_option maxHeartbeats 4000000

/-- C3 counterexample: the scenario's capture for `itemID` is
`"/tv/samsung/qled80"`, not the claimed `"tv/samsung/qled80"` — `Join`
prefixes a single leading slash, so the capture is not the bare join of
the remaining segments.  (The repository's own README example and the
matcher's unit tests show the captured value with the leading slash.) -/
theorem subpattern_doublestar_capture_cex :
    ParseTemplate "/items/{category}/{itemID=**}" =
      .ok [.literal "items", .variable "category" none,
        .variable "itemID" (some [.doubleStar])] ∧
    StrictMatch [.literal "items", .variable "category" none,
        .variable "itemID" (some [.doubleStar])]
        "/items/electronics/tv/samsung/qled80" {} =
      .ok (true, [("category", "electronics"), ("itemID", "/tv/samsung/qled80")]) ∧
    ("/tv/samsung/qled80" : String) ≠ "tv/samsung/qled80" := by
  refine ⟨rfl, rfl, by decide⟩

set_option maxHeartbeats 200000

/-- C3 (amended): the scenario matches with captures
`{category: "electronics", itemID: "/tv/samsung/qled80"}`; in general a
sub-pattern ending in `DoubleStar` captures `Join` of the remaining path
segments, i.e. their `/`-join prefixed with one `/`. -/
theorem subpattern_doublestar_capture (c : String) (rest : List String)
    (h : rest ≠ []) :
    matchStrictSegs [.literal "items", .variable "category" none,
      .variable "itemID" (some [.doubleStar])] ("items" :: c :: rest) {} =
      .ok (true, [("category", c), ("itemID", Join rest)]) := by
  obtain ⟨r, rs, rfl⟩ : ∃ x xs, rest = x :: xs := by
    cases rest with
    | nil => exact absurd rfl h
    | cons x xs => exact ⟨x, xs, rfl⟩
  simp [matchStrictSegs, Match, matchLoop, subLoop, compareStrings,
    varsInsert, varsLookup]

/-- Witness for `subpattern_doublestar_capture` on the scenario's path. -/
theorem subpattern_doublestar_capture_witness :
    matchStrictSegs [.literal "items", .variable "category" none,
      .variable "itemID" (some [.doubleStar])]
      ["items", "electronics", "tv", "samsung", "qled80"] {} =
      .ok (true, [("category", "electronics"), ("itemID", "/tv/samsung/qled80")]) := by
  rw [subpattern_doublestar_capture "electronics" ["tv", "samsung", "qled80"]
    (by decide)]
  rfl

/-! ## C4 — the keep-first policy does not govern bare variables -/

/-- C4 counterexample: with `keepFirstVariable` set, matching `/{a}/{a}`
against `["x", "y"]` yields `a = "y"` — the *last* write wins even though
the claim says the first-written value must survive: the bare-variable
branch writes unconditionally, consulting the policy only in the
sub-pattern branch. -/
theorem keep_first_bare_variable_cex :
    ParseTemplate "/{a}/{a}" = .ok [.variable "a" none, .variable "a" none] ∧
    matchStrictSegs [.variable "a" none, .variable "a" none] ["x", "y"]
      { keepFirstVariable := true } = .ok (true, [("a", "y")]) ∧
    (("y" : String) = "x") = False := by
  refine ⟨rfl, rfl, by simp⟩

/-- C4 (amended): with `keepFirstVariable` unset the last-written value
wins in every branch; with it set, only the non-`DoubleStar` sub-pattern
branch preserves the first-written value — repeated *bare* variables
(first conjunct) and the `DoubleStar` sub-pattern early-return branch
(last conjunct, `/{a}/{a=**}` overwriting the pre-existing `a`) always
keep the last write, regardless of the option. -/
theorem variable_conflict_policy (a x y l : String) (kf : Bool) :
    matchStrictSegs [.variable a none, .variable a none] [x, y]
        { keepFirstVariable := kf } = .ok (true, [(a, y)]) ∧
    matchStrictSegs [.variable a none, .variable a (some [.literal l])] [x, l]
        { keepFirstVariable := true } = .ok (true, [(a, x)]) ∧
    matchStrictSegs [.variable a none, .variable a (some [.literal l])] [x, l]
        { keepFirstVariable := false } = .ok (true, [(a, Join [l])]) ∧
    matchStrictSegs [.variable a none, .variable a (some [.doubleStar])] [x, y]
        { keepFirstVariable := kf } = .ok (true, [(a, Join [y])]) := by
  refine ⟨?_, ?_, ?_, ?_⟩ <;>
    simp [matchStrictSegs, Match, matchLoop, subLoop, compareStrings,
      varsInsert, varsLookup]

end Pathmatch

namespace Pathmatch

/-! ## C9 — Literal comparison folds beyond ASCII -/

/-- Per-rune fold comparison restricted to ASCII runes agrees with ASCII
case folding. -/
theorem runeFoldEq_ascii (a b : Char) (ha : a.toNat < 128) (hb : b.toNat < 128) :
    runeFoldEq a b = decide (asciiLowerNat a.toNat = asciiLowerNat b.toNat) := by
  unfold runeFoldEq
  by_cases hab : a = b
  · subst hab
    simp
  · have hne : a.toNat ≠ b.toNat := fun h => hab (Char.ext (UInt32.ext h))
    rw [if_neg hab]
    have hmax : max a.toNat b.toNat < 128 := by omega
    simp only [hmax, if_pos]
    apply decide_eq_decide.mpr
    unfold asciiLowerNat
    rcases Nat.le_total a.toNat b.toNat with h | h
    · rw [Nat.min_eq_left h, Nat.max_eq_right h]
      split_ifs <;> omega
    · rw [Nat.min_eq_right h, Nat.max_eq_left h]
      split_ifs <;> omega

/-- Fold comparison of ASCII rune sequences is pointwise ASCII case
folding. -/
theorem equalFoldChars_ascii : ∀ (as bs : List Char),
    (∀ c ∈ as, c.toNat < 128) → (∀ c ∈ bs, c.toNat < 128) →
    equalFoldChars as bs =
      decide (as.map (fun c => asciiLowerNat c.toNat) =
        bs.map (fun c => asciiLowerNat c.toNat))
  | [], [], _, _ => by simp [equalFoldChars]
  | [], b :: bs, _, _ => by simp [equalFoldChars]
  | a :: as, [], _, _ => by simp [equalFoldChars]
  | a :: as, b :: bs, ha, hb => by
    rw [equalFoldChars, runeFoldEq_ascii a b (ha a (by simp)) (hb b (by simp)),
      equalFoldChars_ascii as bs (fun c hc => ha c (by simp [hc]))
        (fun c hc => hb c (by simp [hc]))]
    simp [Bool.decide_and]

/-- C9 counterexample: under `caseInsensitive`, the Literal `"k"` is
considered equal to the path segment `"K"` (KELVIN SIGN) — the two
are *not* equal under ASCII case folding, so comparison equality is not
"exactly ASCII case folding" and the fold does extend beyond ASCII. -/
theorem case_fold_beyond_ascii_cex :
    compareStrings (String.mk [Char.ofNat 0x212A]) "k" true = true ∧
    asciiFoldEq (String.mk [Char.ofNat 0x212A]) "k" = false ∧
    Match [.literal "k"] [String.mk [Char.ofNat 0x212A]]
      { caseInsensitive := true } = .ok (true, 1, []) := by
  refine ⟨by decide, by decide, rfl⟩

/-- C9 (amended): when `case_insensitive` is set, comparison is Go's
simple Unicode case folding.  On ASCII strings this coincides with ASCII
case folding (proved here); beyond ASCII the fold relates further
characters, e.g. U+212A to `k`. -/
theorem compareStrings_ascii (a b : String)
    (ha : a.toList.all (fun c => c.toNat < 128) = true)
    (hb : b.toList.all (fun c => c.toNat < 128) = true) :
    compareStrings a b true = asciiFoldEq a b := by
  unfold compareStrings equalFold asciiFoldEq
  rw [if_pos rfl]
  exact equalFoldChars_ascii a.toList b.toList
    (by simpa using fun c hc => by simpa using (List.all_eq_true.mp ha) c hc)
    (by simpa using fun c hc => by simpa using (List.all_eq_true.mp hb) c hc)

/-- Witness for `compareStrings_ascii` on `"Data"` and `"dATA"`. -/
theorem compareStrings_ascii_witness :
    compareStrings "Data" "dATA" true = asciiFoldEq "Data" "dATA" :=
  compareStrings_ascii "Data" "dATA" (by decide) (by decide)

/-! ## C10 — sub-pattern Literal captures use the template's spelling -/

/-- C10: when a sub-pattern literal `lit` matches the path segment `p`
(under whichever comparison the options select), the value accumulated
into the variable's capture is `lit` — the template's text — not `p`; a
following `star` contributes the path segment itself. -/
theorem subpattern_literal_capture (v lit p q : String) (opts : MatchOptions)
    (h : compareStrings lit p opts.caseInsensitive = true) :
    Match [.variable v (some [.literal lit, .star])] [p, q] opts =
      .ok (true, 2, [(v, Join [lit, q])]) := by
  simp [Match, matchLoop, subLoop, h, varsInsert, varsLookup]

/-- Witness for `subpattern_literal_capture`: under case-insensitive
matching, `{v=Sub/*}` against `["sUB", "x"]` captures `v = "/Sub/x"` with
the template's spelling `"Sub"`, not the path's `"sUB"`. -/
theorem subpattern_literal_capture_witness :
    Match [.variable "v" (some [.literal "Sub", .star])] ["sUB", "x"]
      { caseInsensitive := true } = .ok (true, 2, [("v", "/Sub/x")]) := by
  rw [subpattern_literal_capture "v" "Sub" "sUB" "x"
    { caseInsensitive := true } (by decide)]
  rfl

end Pathmatch

namespace Pathmatch

/-! ## C2 — total consumption -/

/-- Inner-loop consumption bound: a successful sub-pattern walk without
`doubleStar` consumes exactly one path segment per sub-pattern element. -/
theorem subLoop_done_noDS (opts : MatchOptions) (ps : List String)
    (subs : List Segment) (outerLast : Bool) :
    ∀ (pi : Nat) (acc : List String) (pi' : Nat) (vv : List String),
    listNoDoubleStar subs = true →
    subLoop opts ps subs outerLast pi acc = .done pi' vv →
    pi' = pi + subs.length := by
  induction subs with
  | nil =>
    intro pi acc pi' vv _ h
    rw [subLoop] at h
    cases h
    simp
  | cons seg rest ih =>
    intro pi acc pi' vv hnd h
    rw [listNoDoubleStar, Bool.and_eq_true] at hnd
    cases seg
    · rw [subLoop] at h
      split at h
      · exact absurd h (by simp)
      · have := ih (pi + 1) _ pi' vv hnd.2 h
        simp only [List.length_cons]
        omega
    · rw [subLoop] at h
      split at h
      · have := ih (pi + 1) _ pi' vv hnd.2 h
        simp only [List.length_cons]
        omega
      · exact absurd h (by simp)
    · simp [segNoDoubleStar] at hnd
    · rw [subLoop] at h
      exact absurd h (by simp)

/-- Without a `doubleStar` the sub-pattern walk can never take the
early-return-all path. -/
theorem subLoop_ne_earlyAll (opts : MatchOptions) (ps : List String)
    (subs : List Segment) (outerLast : Bool) :
    ∀ (pi : Nat) (acc : List String) (vv : List String),
    listNoDoubleStar subs = true →
    subLoop opts ps subs outerLast pi acc ≠ .earlyAll vv := by
  induction subs with
  | nil =>
    intro pi acc vv _ h
    rw [subLoop] at h
    exact absurd h (by simp)
  | cons seg rest ih =>
    intro pi acc vv hnd h
    rw [listNoDoubleStar, Bool.and_eq_true] at hnd
    cases seg
    · rw [subLoop] at h
      split at h
      · exact absurd h (by simp)
      · exact ih (pi + 1) _ vv hnd.2 h
    · rw [subLoop] at h
      split at h
      · exact ih (pi + 1) _ vv hnd.2 h
      · exact absurd h (by simp)
    · simp [segNoDoubleStar] at hnd
    · rw [subLoop] at h
      exact absurd h (by simp)

/-- Main-loop consumption: a successful match of a `doubleStar`-free
template suffix consumes exactly its node count in path segments. -/
theorem matchLoop_consume_noDS (opts : MatchOptions) (ps : List String)
    (segs : List Segment) :
    ∀ (pi : Nat) (vars : Vars) (pi' : Nat) (vars' : Vars),
    listNoDoubleStar segs = true →
    matchLoop opts ps segs pi vars = .ok (true, pi', vars') →
    pi' = pi + nodeCount segs := by
  induction segs with
  | nil =>
    intro pi vars pi' vars' _ h
    rw [matchLoop] at h
    cases h
    simp [nodeCount]
  | cons seg rest ih =>
    intro pi vars pi' vars' hnd h
    rw [listNoDoubleStar, Bool.and_eq_true] at hnd
    cases seg
    · rw [matchLoop] at h
      split at h
      · split at h
        · have := ih (pi + 1) vars pi' vars' hnd.2 h
          simp only [nodeCount, List.map_cons, List.sum_cons, segCount] at this ⊢
          omega
        · exact absurd h (by simp)
      · exact absurd h (by simp)
    · rw [matchLoop] at h
      split at h
      · have := ih (pi + 1) vars pi' vars' hnd.2 h
        simp only [nodeCount, List.map_cons, List.sum_cons, segCount] at this ⊢
        omega
      · exact absurd h (by simp)
    · simp [segNoDoubleStar] at hnd
    · rename_i name osubs
      cases osubs
      · rw [matchLoop] at h
        split at h
        · have := ih (pi + 1) _ pi' vars' hnd.2 h
          simp only [nodeCount, List.map_cons, List.sum_cons, segCount] at this ⊢
          omega
        · exact absurd h (by simp)
      · rename_i subs
        have hsubs : listNoDoubleStar subs = true := by
          have h1 := hnd.1
          rw [segNoDoubleStar] at h1
          exact h1
        rw [matchLoop] at h
        split at h
        · rcases hsl : subLoop opts ps subs rest.isEmpty pi [] with _ | e | vv | ⟨pi₂, vv⟩
          · rw [hsl] at h
            exact absurd h (by simp)
          · rw [hsl] at h
            exact absurd h (by simp)
          · exact absurd hsl
              (subLoop_ne_earlyAll opts ps subs rest.isEmpty pi [] vv hsubs)
          · rw [hsl] at h
            have h2 := subLoop_done_noDS opts ps subs rest.isEmpty pi [] pi₂ vv hsubs hsl
            have := ih pi₂ _ pi' vars' hnd.2 h
            simp only [nodeCount, List.map_cons, List.sum_cons, segCount] at this ⊢
            omega
        · exact absurd h (by simp)


/-- A successful `Match` of a `doubleStar`-free template consumes exactly
`nodeCount` path segments (the empty-path special case included). -/
theorem Match_consume_noDS (t : List Segment) (ps : List String)
    (opts : MatchOptions) (pi : Nat) (v : Vars)
    (hnd : listNoDoubleStar t = true)
    (h : Match t ps opts = .ok (true, pi, v)) : pi = nodeCount t := by
  unfold Match at h
  split at h
  · simp only [Except.ok.injEq, Prod.mk.injEq] at h
    obtain ⟨ht, hpi, _⟩ := h
    rw [beq_iff_eq, List.length_eq_zero] at ht
    subst ht
    simp [nodeCount]
    omega
  · simpa using matchLoop_consume_noDS opts ps t 0 [] pi v hnd h

/-- C2: the strict wrapper (`match.go` / `StrictMatch`) reports success
only when the whole template and the whole segment list were consumed —
for a tree without `DoubleStar`, success forces the tree's node count to
equal the path length, so a shorter tree never reports `matched = true`. -/
theorem strict_match_total_consumption (t : List Segment) (ps : List String)
    (opts : MatchOptions) (hnd : listNoDoubleStar t = true) :
    (∀ vars, matchStrictSegs t ps opts = .ok (true, vars) →
      nodeCount t = ps.length) ∧
    (nodeCount t < ps.length →
      ∀ vars, matchStrictSegs t ps opts ≠ .ok (true, vars)) := by
  have key : ∀ vars, matchStrictSegs t ps opts = .ok (true, vars) →
      nodeCount t = ps.length := by
    intro vars h
    rcases hm : Match t ps opts with e | ⟨m, pi, v⟩
    · simp [matchStrictSegs, hm] at h
    · simp only [matchStrictSegs, hm] at h
      split at h
      · rename_i hcond
        rw [Bool.and_eq_true, beq_iff_eq] at hcond
        obtain ⟨hm2, hpi⟩ := hcond
        subst hm2
        rw [Match_consume_noDS t ps opts pi v hnd hm] at hpi
        omega
      · exact absurd h (by simp)
  refine ⟨key, fun hlt vars h => ?_⟩
  rw [key vars h] at hlt
  omega

/-- Witness for `strict_match_total_consumption`: the one-node tree
`[literal "a"]` can never strictly match the two-segment path
`["a", "b"]`. -/
theorem strict_match_total_consumption_witness :
    matchStrictSegs [Segment.literal "a"] ["a", "b"] {} ≠
      Except.ok (true, ([] : Vars)) :=
  (strict_match_total_consumption [Segment.literal "a"] ["a", "b"] {}
    (by decide)).2 (by decide) []

end Pathmatch

namespace Pathmatch

/-! ## C6 — cursor undo is the exact inverse of step -/

/-- Setting an entry at or beyond the taken prefix leaves the prefix
unchanged. -/
theorem take_set_of_le (l : List Nat) (i a n : Nat) (h : n ≤ i) :
    (l.set i a).take n = l.take n := by
  induction l generalizing i n with
  | nil => simp
  | cons x xs ih =>
    cases n with
    | zero => simp
    | succ n =>
      cases i with
      | zero => omega
      | succ i =>
        simp only [List.set_cons_succ, List.take_succ_cons]
        rw [ih i n (by omega)]

/-- Relation `WEquiv` is reflexive. -/
theorem wequiv_refl (w : Walker) : WEquiv w w :=
  ⟨rfl, rfl, rfl, rfl, rfl, rfl⟩

/-- Relation `WEquiv` is transitive. -/
theorem wequiv_trans {a b c : Walker} (h1 : WEquiv a b) (h2 : WEquiv b c) :
    WEquiv a c := by
  obtain ⟨p1, p2, p3, p4, p5, p6⟩ := h1
  obtain ⟨q1, q2, q3, q4, q5, q6⟩ := h2
  exact ⟨p1.trans q1, p2.trans q2, p3.trans q3, p4.trans q4, p5.trans q5,
    p6.trans q6⟩

/-- A successful `step` preserves the walker invariant. -/
theorem step_inv {w : Walker} {t : List Segment} {sv : Vars} {w₁ : Walker}
    (hinv : WalkerInv w) (h : step w t = .stepped sv w₁) : WalkerInv w₁ := by
  obtain ⟨h1, h2, h3⟩ := hinv
  unfold step at h
  rcases hm : Match t (w.pathSegments.drop w.pathSegIdx) w.matchOptions with
    e | ⟨m, pi, v⟩
  · rw [hm] at h
    exact absurd h (by simp)
  · rw [hm] at h
    cases m with
    | false => exact absurd h (by simp)
    | true =>
      simp only [StepOutcome.stepped.injEq] at h
      obtain ⟨hsv, hw⟩ := h
      subst hw
      constructor
      · simp only
        split
        · rename_i hlen
          simp only [List.length_append, List.length_cons, List.length_nil]
          omega
        · rename_i hlen
          rw [List.length_set]
          omega
      constructor
      · simp only
        split
        · rename_i hlen
          have hcp : w.segIdsCheckpoints.length = w.currDepth + 1 := by omega
          rw [← hcp, List.getElem?_concat_length]
        · rename_i hlen
          rw [List.getElem?_set_eq_of_lt _ (by omega)]
      · simp only [List.length_append, List.length_cons, List.length_nil]
        omega


/-- Applying `stepBack` right after a successful `step` reports true and restores a
state agreeing with the original walker on everything observable. -/
theorem stepBack_after_step {w : Walker} {t : List Segment} {sv : Vars}
    {w₁ : Walker} (hinv : WalkerInv w) (h : step w t = .stepped sv w₁) :
    (stepBack w₁).2 = true ∧ WEquiv (stepBack w₁).1 w := by
  obtain ⟨h1, h2, h3⟩ := hinv
  unfold step at h
  rcases hm : Match t (w.pathSegments.drop w.pathSegIdx) w.matchOptions with
    e | ⟨m, pi, v⟩
  · rw [hm] at h
    exact absurd h (by simp)
  · rw [hm] at h
    cases m with
    | false => exact absurd h (by simp)
    | true =>
      simp only [StepOutcome.stepped.injEq] at h
      obtain ⟨hsv, hw⟩ := h
      subst hw
      rw [stepBack]
      simp only [Nat.add_sub_cancel]
      rw [if_neg (by omega)]
      refine ⟨rfl, rfl, ?_, rfl, ?_, rfl, ?_⟩
      · -- restored offset equals the original one
        simp only
        split
        · rename_i hlen
          have hcp : w.currDepth < w.segIdsCheckpoints.length := h1
          rw [List.getD_eq_getElem?_getD, List.getElem?_append_left hcp, h2]
          rfl
        · rename_i hlen
          rw [List.getD_eq_getElem?_getD, List.getElem?_set_ne (by omega), h2]
          rfl
      · -- restored capture layers equal the original ones
        simp only [List.length_append, List.length_cons, List.length_nil]
        rw [if_pos (by omega)]
        rw [List.take_append_of_le_length (by omega), List.take_of_length_le (by omega)]
      · -- checkpoint prefixes agree up to the restored depth
        simp only
        split
        · rename_i hlen
          have hcp : w.segIdsCheckpoints.length = w.currDepth + 1 := by omega
          rw [List.take_append_of_le_length (by omega)]
        · rename_i hlen
          rw [take_set_of_le _ _ _ _ (by omega)]

/-- Function `stepBack` maps observably-equal walkers to observably-equal walkers
with the same boolean result. -/
theorem stepBack_wequiv {x y : Walker} (h : WEquiv x y) :
    (stepBack x).2 = (stepBack y).2 ∧ WEquiv (stepBack x).1 (stepBack y).1 := by
  obtain ⟨p1, p2, p3, p4, p5, p6⟩ := h
  unfold stepBack
  rw [p3]
  by_cases hd : y.currDepth = 0
  · rw [if_pos hd, if_pos hd]
    exact ⟨rfl, p1, p2, p3, p4, p5, p6⟩
  · rw [if_neg hd, if_neg hd]
    have p6' : List.take (y.currDepth + 1) x.segIdsCheckpoints =
        List.take (y.currDepth + 1) y.segIdsCheckpoints := by
      have hp := p6
      rw [p3] at hp
      exact hp
    have hidx : x.segIdsCheckpoints.getD (y.currDepth - 1) 0 =
        y.segIdsCheckpoints.getD (y.currDepth - 1) 0 := by
      rw [List.getD_eq_getElem?_getD, List.getD_eq_getElem?_getD]
      have hx : x.segIdsCheckpoints[y.currDepth - 1]? =
          (x.segIdsCheckpoints.take (y.currDepth + 1))[y.currDepth - 1]? := by
        rw [List.getElem?_take_of_lt (by omega)]
      have hy : y.segIdsCheckpoints[y.currDepth - 1]? =
          (y.segIdsCheckpoints.take (y.currDepth + 1))[y.currDepth - 1]? := by
        rw [List.getElem?_take_of_lt (by omega)]
      rw [hx, hy, p6']
    refine ⟨rfl, p1, ?_, rfl, ?_, p5, ?_⟩
    · simp only [hidx]
    · rw [p4]
    · simp only
      have : ∀ (l : List Nat), (l.take (y.currDepth + 1)).take (y.currDepth - 1 + 1) =
          l.take (y.currDepth - 1 + 1) := by
        intro l
        rw [List.take_take, Nat.min_eq_left (by omega)]
      rw [← this x.segIdsCheckpoints, ← this y.segIdsCheckpoints, p6']


/-- After `n` successful steps, `n` `stepBack`s return to a state agreeing
observably with the starting walker. -/
theorem stepMany_stepBackN (ts : List (List Segment)) :
    ∀ (w w' : Walker), WalkerInv w → stepMany w ts = some w' →
    WEquiv (stepBackN ts.length w') w := by
  induction ts with
  | nil =>
    intro w w' _ h
    rw [stepMany] at h
    cases h
    exact wequiv_refl _
  | cons t ts ih =>
    intro w w' hinv h
    rw [stepMany] at h
    rcases hs : step w t with e | _ | ⟨sv, w₁⟩
    · rw [hs] at h
      exact absurd h (by simp)
    · rw [hs] at h
      exact absurd h (by simp)
    · rw [hs] at h
      have hinv₁ : WalkerInv w₁ := step_inv hinv hs
      have hIH : WEquiv (stepBackN ts.length w') w₁ := ih w₁ w' hinv₁ h
      have hback := stepBack_wequiv hIH
      have hrestore := stepBack_after_step hinv hs
      rw [List.length_cons, stepBackN]
      exact wequiv_trans hback.2 hrestore.2

/-- Observable agreement gives equal `remaining`, `Variables` and `depth`. -/
theorem wequiv_obs {a b : Walker} (h : WEquiv a b) :
    remaining a = remaining b ∧ Variables a = Variables b ∧ depth a = depth b := by
  obtain ⟨p1, p2, p3, p4, p5, p6⟩ := h
  refine ⟨?_, ?_, p3⟩
  · rw [remaining, remaining, p1, p2]
  · rw [Variables, Variables, p4, p5]

/-- C6: for every walker satisfying the API invariant and every sequence of
`n` successful `step` calls, `n` `stepBack` calls restore `remaining()`,
`variables()` and `depth()` to their prior values; and `stepBack` at depth
0 returns false leaving the cursor unchanged. -/
theorem cursor_undo_exact :
    (∀ (w : Walker) (ts : List (List Segment)) (w' : Walker),
      WalkerInv w → stepMany w ts = some w' →
      remaining (stepBackN ts.length w') = remaining w ∧
      Variables (stepBackN ts.length w') = Variables w ∧
      depth (stepBackN ts.length w') = depth w) ∧
    (∀ w : Walker, depth w = 0 → stepBack w = (w, false)) := by
  constructor
  · intro w ts w' hinv h
    exact wequiv_obs (stepMany_stepBackN ts w w' hinv h)
  · intro w h
    have h' : w.currDepth = 0 := h
    rw [stepBack, if_pos h']

/-- Witness for `cursor_undo_exact`: one successful step on the cursor over
`"/a/b"` with template `/a`, then one `stepBack`. -/
theorem cursor_undo_exact_witness :
    (remaining (stepBackN 1
        { pathSegments := ["a", "b"], currDepth := 1, pathSegIdx := 1,
          segIdsCheckpoints := [0, 1], vars := [[]], matchOptions := {} }) =
      remaining (newWalker "/a/b") ∧
     Variables (stepBackN 1
        { pathSegments := ["a", "b"], currDepth := 1, pathSegIdx := 1,
          segIdsCheckpoints := [0, 1], vars := [[]], matchOptions := {} }) =
      Variables (newWalker "/a/b") ∧
     depth (stepBackN 1
        { pathSegments := ["a", "b"], currDepth := 1, pathSegIdx := 1,
          segIdsCheckpoints := [0, 1], vars := [[]], matchOptions := {} }) =
      depth (newWalker "/a/b")) ∧
    stepBack (newWalker "/a/b") = (newWalker "/a/b", false) :=
  ⟨cursor_undo_exact.1 (newWalker "/a/b") [[Segment.literal "a"]]
      { pathSegments := ["a", "b"], currDepth := 1, pathSegIdx := 1,
        segIdsCheckpoints := [0, 1], vars := [[]], matchOptions := {} }
      (by decide) (by decide),
    cursor_undo_exact.2 (newWalker "/a/b") rfl⟩

end Pathmatch

namespace Pathmatch

/-! ## C8 — DoubleStar placement is enforced during compilation -/

/-- Once the lexer has met a `**`, any further `parseSegment` call fails
with the double-star-placement error, whatever the state and whether or
not a variable is expected. -/
theorem parseSegment_after_doublestar (fuel : Nat) (lex : Lexer) (b : Bool)
    (h : lex.meetDoubleStar = true) :
    parseSegment (fuel + 1) lex b = .error .unexpectedDoubleStar := by
  rw [parseSegment]
  simp [h]

/-- The lexer's sticky flag is never cleared by `Match`. -/
theorem lexMatch_meet_monotone (tok : TokenType) (l : Lexer)
    (h : l.meetDoubleStar = true) :
    ((lexMatch tok l).2).meetDoubleStar = true := by
  unfold lexMatch
  split
  · exact h
  · split <;> simp [h]

/-- Consuming a `doubleStar` token sets the sticky flag. -/
theorem lexMatch_doublestar_sets (l : Lexer)
    (h : (lexMatch .doubleStar l).1 = true) :
    ((lexMatch .doubleStar l).2).meetDoubleStar = true := by
  by_cases hc : l.curr.type = TokenType.doubleStar
  · simp [lexMatch, hc]
  · simp [lexMatch, hc] at h

/-- C8: consuming a `**` sets the lexer's sticky flag, no parser step
clears it, and with the flag set every further segment parse fails with
the double-star-placement error — so a `DoubleStar` is accepted only as
the final element of its enclosing sequence.  The concrete compilations
show the error for a mid-template `**`, a mid-sub-pattern `**` and a
segment after a sub-pattern `**`, and acceptance in the two final
positions. -/
theorem doublestar_placement_enforced :
    (∀ (fuel : Nat) (lex : Lexer) (b : Bool), lex.meetDoubleStar = true →
      parseSegment (fuel + 1) lex b = .error .unexpectedDoubleStar) ∧
    (∀ (tok : TokenType) (l : Lexer), l.meetDoubleStar = true →
      ((lexMatch tok l).2).meetDoubleStar = true) ∧
    (∀ (l : Lexer), (lexMatch .doubleStar l).1 = true →
      ((lexMatch .doubleStar l).2).meetDoubleStar = true) ∧
    ParseTemplate "/a/**/b" = .error .unexpectedDoubleStar ∧
    ParseTemplate "/{v=**/x}" = .error .unexpectedDoubleStar ∧
    ParseTemplate "/{v=**}/x" = .error .unexpectedDoubleStar ∧
    ParseTemplate "/a/**" = .ok [.literal "a", .doubleStar] ∧
    ParseTemplate "/{v=a/**}" =
      .ok [.variable "v" (some [.literal "a", .doubleStar])] :=
  ⟨parseSegment_after_doublestar, lexMatch_meet_monotone,
    lexMatch_doublestar_sets, rfl, rfl, rfl, rfl, rfl⟩

/-- Witness for `doublestar_placement_enforced` at a concrete lexer state
with the flag set. -/
theorem doublestar_placement_enforced_witness :
    parseSegment 1
        { input := [], pos := 0, curr := {}, meetDoubleStar := true } true =
      .error .unexpectedDoubleStar ∧
    ((lexMatch .slash
        { input := [], pos := 0, curr := {}, meetDoubleStar := true }).2).meetDoubleStar
      = true :=
  ⟨doublestar_placement_enforced.1 0
      { input := [], pos := 0, curr := {}, meetDoubleStar := true } true rfl,
    doublestar_placement_enforced.2.1 .slash
      { input := [], pos := 0, curr := {}, meetDoubleStar := true } rfl⟩

end Pathmatch
